import Mathlib

/-
Verification of sideboard's lifecycle registry (sideboard/lib/_cp.py) and
connectivity prober (sideboard/internal/connection_checker.py).

The lifecycle registry in the source is a pair of `defaultdict(list)` maps
from an integer priority to the list of callbacks registered under that
priority (`_startup_registry` / `_shutdown_registry`).  Registration
(`_on_startup` / `_on_shutdown`) appends the callback to the list under its
priority key; `_run_startup` / `_run_shutdown` iterate
`sorted(registry.items())` and call each callback of each group in list
order.  We embed the registry as an association list from `Int` priorities
to callback groups, with the dict's key-uniqueness as an invariant, and
`sorted(...)` as an insertion sort on the keys.
-/

namespace Sideboard

/-- A registry, as in `_cp.py`: a map priority ↦ callbacks registered under
that priority, embedded as an association list with unique keys (the Python
dict guarantees key uniqueness; insertion order of the keys is irrelevant
because the run functions sort the items by key). -/
abbrev Registry (α : Type) := List (Int × List α)

/-- `registry[priority].append(func)` on a `defaultdict(list)`: append `f`
to the group of key `p`, creating the group if the key is absent. -/
def registryAdd {α : Type} (r : Registry α) (p : Int) (f : α) : Registry α :=
  match r with
  | [] => [(p, [f])]
  | (q, g) :: rest =>
    if q = p then (q, g ++ [f]) :: rest else (q, g) :: registryAdd rest p f

/-- The group registered under key `p` (`registry[p]`, `[]` if absent). -/
def groupOf {α : Type} (r : Registry α) (p : Int) : List α :=
  match r with
  | [] => []
  | (q, g) :: rest => if q = p then g else groupOf rest p

/-- The keys of the registry. -/
def keysOf {α : Type} (r : Registry α) : List Int := r.map Prod.fst

/-- Insert an item into an item list sorted by ascending key. -/
def insertSorted {α : Type} (x : Int × List α) : Registry α → Registry α
  | [] => [x]
  | y :: ys => if x.1 ≤ y.1 then x :: y :: ys else y :: insertSorted x ys

/-- `sorted(registry.items())`: the registry's items ordered by ascending
priority key (keys are unique, so stability is irrelevant). -/
def sortReg {α : Type} (r : Registry α) : Registry α := r.foldr insertSorted []

/-- The order in which `_run_startup` / `_run_shutdown` invoke the
callbacks: groups in ascending priority order, each group in registration
order. -/
def execOrder {α : Type} (r : Registry α) : List α :=
  (sortReg r).flatMap Prod.snd

/-- Register a batch: fold `_on_startup`/`_on_shutdown` over a list of
(priority, callback) registration events, in order. -/
def registerAll {α : Type} (r : Registry α) (regs : List (Int × α)) : Registry α :=
  regs.foldl (fun acc pf => registryAdd acc pf.1 pf.2) r

/-! ### Basic registry lemmas -/

theorem groupOf_registryAdd {α : Type} (r : Registry α) (q : Int) (f : α) (p : Int) :
    groupOf (registryAdd r q f) p = groupOf r p ++ (if p = q then [f] else []) := by
  induction r with
  | nil =>
    simp only [registryAdd, groupOf]
    by_cases h : p = q
    · subst h; simp
    · rw [if_neg (fun hh => h hh.symm), if_neg h]; rfl
  | cons y rest ih =>
    obtain ⟨k, g⟩ := y
    simp only [registryAdd]
    by_cases hk : k = q
    · subst hk
      simp only [if_pos rfl, groupOf]
      by_cases hp : k = p
      · subst hp; simp
      · rw [if_neg hp, if_neg hp, if_neg (fun hh : p = k => hp hh.symm)]
        simp
    · rw [if_neg hk]
      simp only [groupOf]
      by_cases hp : k = p
      · subst hp
        rw [if_pos rfl, if_pos rfl, if_neg (fun hh : k = q => hk hh)]
        simp
      · rw [if_neg hp, if_neg hp, ih]

theorem keysOf_registryAdd {α : Type} (r : Registry α) (q : Int) (f : α) :
    keysOf (registryAdd r q f) = if q ∈ keysOf r then keysOf r else keysOf r ++ [q] := by
  induction r with
  | nil => simp [registryAdd, keysOf]
  | cons y rest ih =>
    obtain ⟨k, g⟩ := y
    by_cases hk : k = q
    · subst hk
      simp [registryAdd, keysOf]
    · simp only [registryAdd, if_neg hk]
      have hqk : q ≠ k := fun hh => hk hh.symm
      simp only [keysOf, List.map] at ih ⊢
      rw [ih]
      by_cases hmem : q ∈ rest.map Prod.fst
      · simp [hmem, hqk]
      · simp [hmem, hqk]

theorem nodupKeys_registryAdd {α : Type} (r : Registry α) (q : Int) (f : α)
    (h : (keysOf r).Nodup) : (keysOf (registryAdd r q f)).Nodup := by
  rw [keysOf_registryAdd]
  by_cases hmem : q ∈ keysOf r
  · simpa [hmem]
  · simp [hmem]
    exact List.Nodup.append h (List.nodup_singleton q) (by simpa using hmem)

/-! ### Sorting lemmas -/

/-- Ordering of registry items by priority key, as used by
`sorted(registry.items())`. -/
def keyLe {α : Type} (a b : Int × List α) : Prop := a.1 ≤ b.1

theorem insertSorted_perm {α : Type} (x : Int × List α) (s : Registry α) :
    (insertSorted x s).Perm (x :: s) := by
  induction s with
  | nil => exact List.Perm.refl _
  | cons y ys ih =>
    simp only [insertSorted]
    by_cases h : x.1 ≤ y.1
    · rw [if_pos h]
    · rw [if_neg h]
      exact (ih.cons y).trans (List.Perm.swap x y ys)

theorem sortReg_perm {α : Type} (r : Registry α) : (sortReg r).Perm r := by
  induction r with
  | nil => exact List.Perm.refl _
  | cons y ys ih =>
    exact (insertSorted_perm y (sortReg ys)).trans (ih.cons y)

theorem pairwise_insertSorted {α : Type} (x : Int × List α) (s : Registry α)
    (hs : s.Pairwise keyLe) : (insertSorted x s).Pairwise keyLe := by
  induction s with
  | nil => simp [insertSorted, List.pairwise_singleton]
  | cons y ys ih =>
    rw [List.pairwise_cons] at hs
    simp only [insertSorted]
    by_cases h : x.1 ≤ y.1
    · rw [if_pos h]
      refine List.Pairwise.cons ?_ (List.Pairwise.cons hs.1 hs.2)
      intro z hz
      rcases List.mem_cons.mp hz with hz | hz
      · subst hz; exact h
      · exact le_trans h (hs.1 z hz)
    · rw [if_neg h]
      refine List.Pairwise.cons ?_ (ih hs.2)
      intro z hz
      have hz' : z ∈ x :: ys := (insertSorted_perm x ys).mem_iff.mp hz
      rcases List.mem_cons.mp hz' with hz' | hz'
      · subst hz'; exact le_of_not_le h
      · exact hs.1 z hz'

theorem sortReg_sorted {α : Type} (r : Registry α) : (sortReg r).Pairwise keyLe := by
  induction r with
  | nil => simp [sortReg]
  | cons y ys ih => exact pairwise_insertSorted y (sortReg ys) ih

/-! ### Lookup lemmas -/

theorem mem_keysOf {α : Type} {r : Registry α} {p : Int} :
    p ∈ keysOf r ↔ ∃ g, (p, g) ∈ r := by
  simp only [keysOf, List.mem_map]
  constructor
  · rintro ⟨⟨k, g⟩, hm, rfl⟩
    exact ⟨g, hm⟩
  · rintro ⟨g, hm⟩
    exact ⟨(p, g), hm, rfl⟩

theorem groupOf_eq_nil_of_not_mem {α : Type} {r : Registry α} {p : Int}
    (h : p ∉ keysOf r) : groupOf r p = [] := by
  induction r with
  | nil => rfl
  | cons y rest ih =>
    obtain ⟨k, g⟩ := y
    simp only [keysOf, List.map, List.mem_cons] at h
    push_neg at h
    simp only [groupOf]
    rw [if_neg (fun hh : k = p => h.1 hh.symm)]
    exact ih h.2

theorem groupOf_eq_of_mem {α : Type} {r : Registry α} {p : Int} {g : List α}
    (hm : (p, g) ∈ r) (hnd : (keysOf r).Nodup) : groupOf r p = g := by
  induction r with
  | nil => cases hm
  | cons y rest ih =>
    obtain ⟨k, g'⟩ := y
    simp only [keysOf, List.map, List.nodup_cons] at hnd
    rcases List.mem_cons.mp hm with hm | hm
    · obtain ⟨rfl, rfl⟩ := Prod.mk.injEq .. ▸ hm
      · simp [groupOf]
    · simp only [groupOf]
      by_cases hk : k = p
      · subst hk
        exact absurd (mem_keysOf.mpr ⟨g, hm⟩) hnd.1
      · rw [if_neg hk]
        exact ih hm hnd.2

theorem groupOf_perm {α : Type} {r s : Registry α} (h : r.Perm s)
    (hnd : (keysOf r).Nodup) (p : Int) : groupOf r p = groupOf s p := by
  have hnds : (keysOf s).Nodup := ((h.map Prod.fst).nodup_iff).mp hnd
  by_cases hp : p ∈ keysOf r
  · obtain ⟨g, hg⟩ := mem_keysOf.mp hp
    rw [groupOf_eq_of_mem hg hnd, groupOf_eq_of_mem (h.subset hg) hnds]
  · have hp' : p ∉ keysOf s := fun hh => hp ((h.map Prod.fst).mem_iff.mpr hh)
    rw [groupOf_eq_nil_of_not_mem hp, groupOf_eq_nil_of_not_mem hp']

/-! ### The dict invariant and the tag invariant

In `_cp.py` a callback is only ever stored under the (single) priority it
was registered with.  `τ` retrieves that priority from the callback value
(for the verification we register values that remember their priority). -/

def TaggedReg {α : Type} (τ : α → Int) (r : Registry α) : Prop :=
  ∀ e ∈ r, ∀ c ∈ e.2, τ c = e.1

theorem taggedReg_registryAdd {α : Type} {τ : α → Int} {r : Registry α} {q : Int} {f : α}
    (hr : TaggedReg τ r) (hf : τ f = q) : TaggedReg τ (registryAdd r q f) := by
  induction r with
  | nil =>
    intro e he c hc
    simp only [registryAdd, List.mem_singleton] at he
    subst he
    simp only [List.mem_singleton] at hc
    subst hc; exact hf
  | cons y rest ih =>
    obtain ⟨k, g⟩ := y
    have hrest : TaggedReg τ rest := fun e he => hr e (List.mem_cons_of_mem _ he)
    have hhead : ∀ c ∈ g, τ c = k := hr (k, g) (List.mem_cons_self _ _)
    simp only [registryAdd]
    by_cases hk : k = q
    · subst hk
      rw [if_pos rfl]
      intro e he c hc
      rcases List.mem_cons.mp he with he | he
      · subst he
        rcases List.mem_append.mp hc with hc | hc
        · exact hhead c hc
        · simp only [List.mem_singleton] at hc; subst hc; exact hf
      · exact hr e (List.mem_cons_of_mem _ he) c hc
    · rw [if_neg hk]
      intro e he c hc
      rcases List.mem_cons.mp he with he | he
      · subst he; exact hhead c hc
      · exact ih hrest e he c hc

theorem taggedReg_perm {α : Type} {τ : α → Int} {r s : Registry α}
    (h : r.Perm s) (hr : TaggedReg τ r) : TaggedReg τ s :=
  fun e he => hr e (h.mem_iff.mpr he)

/-- Under the dict invariant and the tag invariant, filtering the flattened
registry by priority `p` recovers exactly the group registered under `p`. -/
theorem filter_flatMap_eq_groupOf {α : Type} (τ : α → Int) (p : Int) (s : Registry α)
    (ht : TaggedReg τ s) (hnd : (keysOf s).Nodup) :
    (s.flatMap Prod.snd).filter (fun c => τ c == p) = groupOf s p := by
  induction s with
  | nil => rfl
  | cons y rest ih =>
    obtain ⟨k, g⟩ := y
    have hrest : TaggedReg τ rest := fun e he => ht e (List.mem_cons_of_mem _ he)
    have hhead : ∀ c ∈ g, τ c = k := ht (k, g) (List.mem_cons_self _ _)
    simp only [keysOf, List.map, List.nodup_cons] at hnd
    simp only [List.flatMap_cons, List.filter_append, groupOf]
    by_cases hk : k = p
    · subst hk
      rw [if_pos rfl]
      have h1 : g.filter (fun c => τ c == k) = g := by
        apply List.filter_eq_self.mpr
        intro c hc
        exact beq_iff_eq.mpr (hhead c hc)
      have h2 : (rest.flatMap Prod.snd).filter (fun c => τ c == k) = [] := by
        apply List.filter_eq_nil_iff.mpr
        intro c hc
        obtain ⟨e, he, hce⟩ := List.mem_flatMap.mp hc
        have : τ c = e.1 := hrest e he c hce
        have hne : e.1 ≠ k := by
          intro hh
          exact hnd.1 (hh ▸ (List.mem_map.mpr ⟨e, he, rfl⟩))
        simp [this, hne]
      rw [h1, h2, List.append_nil]
    · rw [if_neg hk]
      have h1 : g.filter (fun c => τ c == p) = [] := by
        apply List.filter_eq_nil_iff.mpr
        intro c hc
        simp [hhead c hc, hk]
      rw [h1, List.nil_append]
      exact ih hrest hnd.2

/-- Under the tag invariant, the flattened sorted registry is ordered by
ascending priority. -/
theorem pairwise_flatMap_of_sorted {α : Type} (τ : α → Int) (s : Registry α)
    (hs : s.Pairwise keyLe) (ht : TaggedReg τ s) :
    (s.flatMap Prod.snd).Pairwise (fun a b => τ a ≤ τ b) := by
  induction s with
  | nil => simp
  | cons y rest ih =>
    obtain ⟨k, g⟩ := y
    rw [List.pairwise_cons] at hs
    have hrest : TaggedReg τ rest := fun e he => ht e (List.mem_cons_of_mem _ he)
    have hhead : ∀ c ∈ g, τ c = k := ht (k, g) (List.mem_cons_self _ _)
    simp only [List.flatMap_cons]
    rw [List.pairwise_append]
    refine ⟨?_, ih hs.2 hrest, ?_⟩
    · apply List.pairwise_of_forall_mem_list
      intro a ha b hb
      rw [hhead a ha, hhead b hb]
    · intro a ha b hb
      obtain ⟨e, he, hbe⟩ := List.mem_flatMap.mp hb
      rw [hhead a ha, hrest e he b hbe]
      exact hs.1 e he

/-! ### Registering a batch of callbacks -/

theorem groupOf_registerAll {α : Type} (r : Registry α) (regs : List (Int × α)) (p : Int) :
    groupOf (registerAll r regs) p =
      groupOf r p ++ (regs.filter (fun pf => pf.1 == p)).map Prod.snd := by
  induction regs generalizing r with
  | nil => simp [registerAll]
  | cons pf rest ih =>
    have hstep : registerAll r (pf :: rest) = registerAll (registryAdd r pf.1 pf.2) rest := rfl
    rw [hstep, ih, groupOf_registryAdd]
    by_cases h : pf.1 = p
    · simp [List.filter_cons, h]
    · have h' : ¬p = pf.1 := fun hh => h hh.symm
      simp only [List.filter_cons, if_neg h', beq_iff_eq, h, List.append_assoc]
      simp [h', List.map]

theorem keys_nodup_registerAll {α : Type} (r : Registry α) (regs : List (Int × α))
    (h : (keysOf r).Nodup) : (keysOf (registerAll r regs)).Nodup := by
  induction regs generalizing r with
  | nil => exact h
  | cons pf rest ih => exact ih _ (nodupKeys_registryAdd _ _ _ h)

theorem taggedReg_registerAll {α : Type} {τ : α → Int} (r : Registry α)
    (regs : List (Int × α)) (hr : TaggedReg τ r) (hregs : ∀ pf ∈ regs, τ pf.2 = pf.1) :
    TaggedReg τ (registerAll r regs) := by
  induction regs generalizing r with
  | nil => exact hr
  | cons pf rest ih =>
    exact ih _ (taggedReg_registryAdd hr (hregs pf (List.mem_cons_self _ _)))
      (fun e he => hregs e (List.mem_cons_of_mem _ he))

/-! ### Execution order of a batch of prioritized registrations (C1) -/

/-- Register callbacks from a list of (priority, callback-id) registration
events — `_on_startup(func, priority)` for each event in order, starting
from the empty registry — and return the callbacks in the order
`_run_startup` invokes them.  The stored value remembers the priority it
was registered with so that theorems can speak about it. -/
def startupExec (regs : List (Int × Nat)) : List (Int × Nat) :=
  execOrder (registerAll [] (regs.map (fun pi => (pi.1, pi))))

theorem filter_map_pair (regs : List (Int × Nat)) (p : Int) :
    (((regs.map (fun pi => (pi.1, pi))).filter (fun pf => pf.1 == p)).map Prod.snd)
      = regs.filter (fun c => c.1 == p) := by
  induction regs with
  | nil => rfl
  | cons pi rest ih =>
    simp only [List.map, List.filter_cons]
    by_cases h : pi.1 = p
    · simp [h, ih]
    · simp [h, ih]

theorem taggedReg_startup (regs : List (Int × Nat)) :
    TaggedReg Prod.fst (registerAll [] (regs.map (fun pi => (pi.1, pi)))) := by
  apply taggedReg_registerAll
  · intro e he; cases he
  · intro pf hpf
    obtain ⟨pi, _, rfl⟩ := List.mem_map.mp hpf
    rfl

theorem keys_nodup_startup (regs : List (Int × Nat)) :
    (keysOf (registerAll [] (regs.map (fun pi => (pi.1, pi))))).Nodup :=
  keys_nodup_registerAll [] _ (by simp [keysOf])

/-- C1: execution order is ascending by numeric priority, and callbacks
sharing a priority execute in registration order: for every batch of
registrations, the execution sequence is pairwise ordered by priority and
restricting it to any single priority yields exactly the registrations of
that priority in their original order; in particular priorities
[30, 10, 20] execute as [10, 20, 30] and two priority-10 callbacks
registered A then B execute A before B. -/
theorem C1_priority_ordering :
    (∀ regs : List (Int × Nat),
        (startupExec regs).Pairwise (fun a b => a.1 ≤ b.1)) ∧
    (∀ (regs : List (Int × Nat)) (p : Int),
        (startupExec regs).filter (fun c => c.1 == p) = regs.filter (fun c => c.1 == p)) ∧
    startupExec [(30, 0), (10, 1), (20, 2)] = [(10, 1), (20, 2), (30, 0)] ∧
    startupExec [(10, 100), (10, 101)] = [(10, 100), (10, 101)] := by
  refine ⟨?_, ?_, by decide, by decide⟩
  · intro regs
    apply pairwise_flatMap_of_sorted Prod.fst _ (sortReg_sorted _)
    exact taggedReg_perm (sortReg_perm _).symm (taggedReg_startup regs)
  · intro regs p
    have hnd := keys_nodup_startup regs
    have hnds : (keysOf (sortReg (registerAll [] (regs.map (fun pi => (pi.1, pi)))))).Nodup := by
      have := (sortReg_perm (registerAll [] (regs.map (fun pi => (pi.1, pi))))).map Prod.fst
      exact this.nodup_iff.mpr hnd
    have h1 := filter_flatMap_eq_groupOf Prod.fst p
      (sortReg (registerAll [] (regs.map (fun pi => (pi.1, pi)))))
      (taggedReg_perm (sortReg_perm _).symm (taggedReg_startup regs)) hnds
    have h2 := groupOf_perm (sortReg_perm (registerAll [] (regs.map (fun pi => (pi.1, pi))))) hnds p
    have h3 := groupOf_registerAll ([] : Registry (Int × Nat)) (regs.map (fun pi => (pi.1, pi))) p
    simp only [groupOf, List.nil_append] at h3
    calc (startupExec regs).filter (fun c => c.1 == p)
        = groupOf (sortReg (registerAll [] (regs.map (fun pi => (pi.1, pi))))) p := h1
      _ = groupOf (registerAll [] (regs.map (fun pi => (pi.1, pi)))) p := h2
      _ = ((regs.map (fun pi => (pi.1, pi))).filter (fun pf => pf.1 == p)).map Prod.snd := h3
      _ = regs.filter (fun c => c.1 == p) := filter_map_pair regs p

/-! ### Running callbacks: `_run_startup` and `_run_shutdown` (C2, C3, C9)

A callback is modelled by what happens when it is invoked: it returns
normally, raises an ordinary `Exception`, or raises a `BaseException`
that is not an `Exception` (e.g. `KeyboardInterrupt` or `SystemExit`). -/

inductive Behavior : Type
  | ok
  | raiseExc
  | raiseBase
deriving DecidableEq, Repr

structure Callback where
  id : Nat
  beh : Behavior
deriving DecidableEq, Repr

/-- Result of a `_run_shutdown` call: which callbacks were invoked, which
had their exception logged by the `except Exception` handler, and the
callback (if any) whose exception propagated out of the loop. -/
structure ShutdownRun where
  invoked : List Nat
  logged : List Nat
  propagated : Option Nat
deriving DecidableEq, Repr

/-- The loop body of `_run_shutdown`: each callback runs inside
`try: func() except Exception: log.warn(...)`, so an ordinary exception is
logged and the loop continues, while a `BaseException` that is not an
`Exception` escapes the handler and aborts the loop. -/
def runShutdownSeq : List Callback → ShutdownRun
  | [] => ⟨[], [], none⟩
  | c :: rest =>
    match c.beh with
    | .ok =>
      let r := runShutdownSeq rest
      ⟨c.id :: r.invoked, r.logged, r.propagated⟩
    | .raiseExc =>
      let r := runShutdownSeq rest
      ⟨c.id :: r.invoked, c.id :: r.logged, r.propagated⟩
    | .raiseBase => ⟨[c.id], [], some c.id⟩

/-- Result of a `_run_startup` call. -/
structure StartupRun where
  invoked : List Nat
  propagated : Option Nat
deriving DecidableEq, Repr

/-- The loop body of `_run_startup`: no exception handling, so the first
raising callback (of any kind) aborts the loop and its error propagates. -/
def runStartupSeq : List Callback → StartupRun
  | [] => ⟨[], none⟩
  | c :: rest =>
    match c.beh with
    | .ok =>
      let r := runStartupSeq rest
      ⟨c.id :: r.invoked, r.propagated⟩
    | _ => ⟨[c.id], some c.id⟩

/-- `_run_startup`: invoke the registered callbacks in sorted priority
order. -/
def run_startup (r : Registry Callback) : StartupRun := runStartupSeq (execOrder r)

/-- `_run_shutdown`: invoke the registered callbacks in sorted priority
order, isolating ordinary exceptions. -/
def run_shutdown (r : Registry Callback) : ShutdownRun := runShutdownSeq (execOrder r)

/-- C2: `run_shutdown` invokes every registered callback even when some
raise ordinary exceptions (no callback raises a non-`Exception`
`BaseException`), and nothing propagates to the caller; in particular for
three callbacks where the second raises, the first and third still run and
the error is logged, not propagated. -/
theorem C2_shutdown_error_isolated :
    (∀ cs : List Callback, (∀ c ∈ cs, c.beh ≠ .raiseBase) →
        (runShutdownSeq cs).invoked = cs.map Callback.id ∧
        (runShutdownSeq cs).propagated = none) ∧
    (∀ a b c : Nat,
        run_shutdown (registerAll []
            [(50, ⟨a, .ok⟩), (50, ⟨b, .raiseExc⟩), (50, ⟨c, .ok⟩)]) =
          ⟨[a, b, c], [b], none⟩) := by
  constructor
  · intro cs h
    induction cs with
    | nil => exact ⟨rfl, rfl⟩
    | cons c rest ih =>
      have hrest := ih (fun d hd => h d (List.mem_cons_of_mem _ hd))
      have hc := h c (List.mem_cons_self _ _)
      match hbeh : c.beh with
      | .ok => simp [runShutdownSeq, hbeh, hrest.1, hrest.2]
      | .raiseExc => simp [runShutdownSeq, hbeh, hrest.1, hrest.2]
      | .raiseBase => exact absurd hbeh hc
  · intro a b c
    rfl

/-- Witness for C2 at a concrete shutdown sequence. -/
theorem C2_shutdown_error_isolated_witness :
    (runShutdownSeq [⟨1, .ok⟩, ⟨2, .raiseExc⟩, ⟨3, .ok⟩]).invoked = [1, 2, 3] ∧
    (runShutdownSeq [⟨1, .ok⟩, ⟨2, .raiseExc⟩, ⟨3, .ok⟩]).propagated = none :=
  C2_shutdown_error_isolated.1 [⟨1, .ok⟩, ⟨2, .raiseExc⟩, ⟨3, .ok⟩] (by decide)

/-- C3: `run_startup` aborts on the first failing callback: the error
propagates and no later callback is invoked; in particular for two
callbacks where the first raises, the second does not run. -/
theorem C3_startup_aborts :
    (∀ (c : Callback) (rest : List Callback), c.beh ≠ .ok →
        runStartupSeq (c :: rest) = ⟨[c.id], some c.id⟩) ∧
    (∀ (a b : Nat) (β : Behavior),
        run_startup (registerAll [] [(50, ⟨a, .raiseExc⟩), (50, ⟨b, β⟩)]) =
          ⟨[a], some a⟩) := by
  constructor
  · intro c rest h
    match hbeh : c.beh with
    | .ok => exact absurd hbeh h
    | .raiseExc => simp [runStartupSeq, hbeh]
    | .raiseBase => simp [runStartupSeq, hbeh]
  · intro a b β
    rfl

/-- Witness for C3 at a concrete startup sequence. -/
theorem C3_startup_aborts_witness :
    runStartupSeq [⟨7, .raiseExc⟩, ⟨8, .ok⟩] = ⟨[7], some 7⟩ :=
  C3_startup_aborts.1 ⟨7, .raiseExc⟩ [⟨8, .ok⟩] (by decide)

/-- C9: the `except Exception` handler in `_run_shutdown` does not catch a
`BaseException` that is not an `Exception`: such an error propagates out of
`run_shutdown` and the remaining callbacks do not run; in particular for
three callbacks where the second raises a `BaseException`, the third is
not invoked. -/
theorem C9_shutdown_base_exception_propagates :
    (∀ (c : Callback) (rest : List Callback), c.beh = .raiseBase →
        runShutdownSeq (c :: rest) = ⟨[c.id], [], some c.id⟩) ∧
    (∀ a b c : Nat,
        run_shutdown (registerAll []
            [(50, ⟨a, .ok⟩), (50, ⟨b, .raiseBase⟩), (50, ⟨c, .ok⟩)]) =
          ⟨[a, b], [], some b⟩) := by
  constructor
  · intro c rest h
    simp [runShutdownSeq, h]
  · intro a b c
    rfl

/-- Witness for C9 at a concrete shutdown sequence. -/
theorem C9_shutdown_base_exception_propagates_witness :
    runShutdownSeq [⟨4, .raiseBase⟩, ⟨5, .ok⟩] = ⟨[4], [], some 4⟩ :=
  C9_shutdown_base_exception_propagates.1 ⟨4, .raiseBase⟩ [⟨5, .ok⟩] (by decide)

/-! ### The `stopped` event and the built-in priority-0 entries (C10)

`_cp.py` creates `stopped = Event()` at module initialization and registers
`on_startup(stopped.clear, priority=0)` and
`on_shutdown(stopped.set, priority=0)`.  A callback is modelled by its
effect on the `stopped` flag; callbacks registered elsewhere do not touch
the flag. -/

inductive StopEffect : Type
  | clearStopped
  | setStopped
  | noEffect
deriving DecidableEq, Repr

structure EventCallback where
  id : Nat
  eff : StopEffect
deriving DecidableEq, Repr

/-- `stopped.clear`, registered by `on_startup(stopped.clear, priority=0)`. -/
def stoppedClear : EventCallback := ⟨0, .clearStopped⟩

/-- `stopped.set`, registered by `on_shutdown(stopped.set, priority=0)`. -/
def stoppedSet : EventCallback := ⟨0, .setStopped⟩

/-- `_startup_registry` right after module initialization. -/
def initStartupRegistry : Registry EventCallback := registryAdd [] 0 stoppedClear

/-- `_shutdown_registry` right after module initialization. -/
def initShutdownRegistry : Registry EventCallback := registryAdd [] 0 stoppedSet

/-- Effect of one callback invocation on the `stopped` flag
(`Event.clear` / `Event.set` / leave it alone). -/
def applyEffect (s : Bool) : StopEffect → Bool
  | .clearStopped => false
  | .setStopped => true
  | .noEffect => s

/-- The `stopped` flag after invoking a sequence of callbacks. -/
def runEffects (cs : List EventCallback) (s : Bool) : Bool :=
  cs.foldl (fun st c => applyEffect st c.eff) s

/-- Register user callbacks (which do not touch the `stopped` event) at
their priorities on top of an existing registry. -/
def addUserCallbacks (r : Registry EventCallback) (regs : List (Int × Nat)) :
    Registry EventCallback :=
  registerAll r (regs.map (fun pi => (pi.1, (⟨pi.2, .noEffect⟩ : EventCallback))))

theorem runEffects_noEffect (cs : List EventCallback)
    (h : ∀ c ∈ cs, c.eff = .noEffect) : ∀ s, runEffects cs s = s := by
  induction cs with
  | nil => intro s; rfl
  | cons c rest ih =>
    intro s
    have hc := h c (List.mem_cons_self _ _)
    have : runEffects (c :: rest) s = runEffects rest (applyEffect s c.eff) := rfl
    rw [this, hc]
    exact ih (fun d hd => h d (List.mem_cons_of_mem _ hd)) s

theorem mem_keysOf_registryAdd {α : Type} {r : Registry α} {q k : Int} {f : α}
    (h : k ∈ keysOf (registryAdd r q f)) : k ∈ keysOf r ∨ k = q := by
  rw [keysOf_registryAdd] at h
  by_cases hq : q ∈ keysOf r
  · rw [if_pos hq] at h; exact Or.inl h
  · rw [if_neg hq] at h
    rcases List.mem_append.mp h with h | h
    · exact Or.inl h
    · simp only [List.mem_singleton] at h; exact Or.inr h

theorem keysOf_mono_registryAdd {α : Type} {r : Registry α} {q k : Int} {f : α}
    (h : k ∈ keysOf r) : k ∈ keysOf (registryAdd r q f) := by
  rw [keysOf_registryAdd]
  by_cases hq : q ∈ keysOf r
  · rw [if_pos hq]; exact h
  · rw [if_neg hq]; exact List.mem_append.mpr (Or.inl h)

theorem mem_keysOf_registerAll {α : Type} {r : Registry α} {l : List (Int × α)} {k : Int}
    (h : k ∈ keysOf (registerAll r l)) : k ∈ keysOf r ∨ ∃ pf ∈ l, pf.1 = k := by
  induction l generalizing r with
  | nil => exact Or.inl h
  | cons pf rest ih =>
    rcases ih (r := registryAdd r pf.1 pf.2) h with h' | h'
    · rcases mem_keysOf_registryAdd h' with h'' | h''
      · exact Or.inl h''
      · exact Or.inr ⟨pf, List.mem_cons_self _ _, h''.symm⟩
    · obtain ⟨e, he, hek⟩ := h'
      exact Or.inr ⟨e, List.mem_cons_of_mem _ he, hek⟩

theorem keysOf_mono_registerAll {α : Type} {r : Registry α} {l : List (Int × α)} {k : Int}
    (h : k ∈ keysOf r) : k ∈ keysOf (registerAll r l) := by
  induction l generalizing r with
  | nil => exact h
  | cons pf rest ih => exact ih (keysOf_mono_registryAdd h)

/-- Shape of the execution order of a registry that holds one built-in
callback at priority 0 plus user callbacks at positive priorities: the
built-in runs first, and everything after it leaves the flag alone. -/
theorem execOrder_builtin_head (b : EventCallback) (regs : List (Int × Nat))
    (hpos : ∀ x ∈ regs, 0 < x.1) :
    ∃ tail, execOrder (addUserCallbacks (registryAdd [] 0 b) regs) = b :: tail ∧
      ∀ c ∈ tail, c.eff = .noEffect := by
  set R := addUserCallbacks (registryAdd [] 0 b) regs with hR
  have hmap : ∀ pf ∈ regs.map (fun pi => (pi.1, (⟨pi.2, .noEffect⟩ : EventCallback))),
      0 < pf.1 ∧ pf.2.eff = .noEffect := by
    intro pf hpf
    obtain ⟨pi, hpi, rfl⟩ := List.mem_map.mp hpf
    exact ⟨hpos pi hpi, rfl⟩
  have hnd : (keysOf R).Nodup := keys_nodup_registerAll _ _ (by simp [keysOf, registryAdd])
  have hperm : (sortReg R).Perm R := sortReg_perm R
  have hnds : (keysOf (sortReg R)).Nodup := (hperm.map Prod.fst).nodup_iff.mpr hnd
  have hsort : (sortReg R).Pairwise keyLe := sortReg_sorted R
  have hzero : (0 : Int) ∈ keysOf (sortReg R) := by
    apply (hperm.map Prod.fst).mem_iff.mpr
    exact keysOf_mono_registerAll (by simp [keysOf, registryAdd])
  have hkeyR : ∀ k ∈ keysOf R, k = 0 ∨ 0 < k := by
    intro k hk
    rcases mem_keysOf_registerAll hk with h | h
    · left
      simpa [keysOf, registryAdd] using h
    · obtain ⟨pf, hpf, rfl⟩ := h
      exact Or.inr (hmap pf hpf).1
  have hfilter : (regs.map (fun pi => (pi.1, (⟨pi.2, .noEffect⟩ : EventCallback)))).filter
      (fun pf => pf.1 == (0 : Int)) = [] := by
    apply List.filter_eq_nil_iff.mpr
    intro pf hpf
    have := (hmap pf hpf).1
    simp only [beq_iff_eq]
    omega
  have hgroup0 : groupOf R 0 = [b] := by
    rw [hR, addUserCallbacks, groupOf_registerAll, hfilter]
    simp [groupOf, registryAdd]
  match hS : sortReg R with
  | [] => rw [hS] at hzero; cases hzero
  | (q, g) :: rest =>
    rw [hS] at hperm hnds hsort hzero
    have hq0 : q = 0 := by
      by_contra hq
      simp only [keysOf, List.map, List.mem_cons] at hzero
      rcases hzero with h | h
      · exact hq h.symm
      · obtain ⟨e, he, he0⟩ := List.mem_map.mp h
        rw [List.pairwise_cons] at hsort
        have hle : q ≤ 0 := he0 ▸ hsort.1 e he
        have hqR : q ∈ keysOf R := (hperm.map Prod.fst).subset (List.mem_cons_self _ _)
        rcases hkeyR q hqR with h' | h'
        · exact hq h'
        · omega
    subst hq0
    have hg : g = [b] := by
      have h1 : groupOf ((0, g) :: rest) (0 : Int) = g := by simp [groupOf]
      have h2 := groupOf_perm hperm hnds (0 : Int)
      rw [h1, hgroup0] at h2
      exact h2
    refine ⟨rest.flatMap Prod.snd, ?_, ?_⟩
    · rw [execOrder, hS, hg]
      rfl
    · intro c hc
      obtain ⟨e, he, hce⟩ := List.mem_flatMap.mp hc
      obtain ⟨q', h⟩ := e
      have hq' : q' ≠ 0 := by
        intro hq'
        subst hq'
        simp only [keysOf, List.map, List.nodup_cons] at hnds
        exact hnds.1 (List.mem_map.mpr ⟨(0, h), he, rfl⟩)
      have heR : (q', h) ∈ R := hperm.subset (List.mem_cons_of_mem _ he)
      have hgroupq : groupOf R q' = h := groupOf_eq_of_mem heR hnd
      rw [hR, addUserCallbacks, groupOf_registerAll] at hgroupq
      have hbase : groupOf (registryAdd [] 0 b) q' = [] := by
        have h0q : ¬(0 : Int) = q' := fun hh => hq' hh.symm
        simp [groupOf, registryAdd, h0q]
      rw [hbase, List.nil_append] at hgroupq
      rw [← hgroupq] at hce
      obtain ⟨pf, hpf, hpfc⟩ := List.mem_map.mp hce
      have := (hmap pf (List.mem_filter.mp hpf).1).2
      rw [hpfc] at this
      exact this

/-- C10: at module initialization the registries hold a startup entry at
priority 0 that clears `stopped` and a shutdown entry at priority 0 that
sets it; for any user callbacks registered at positive priorities, the
built-in entry executes first in its registry, `run_startup` leaves the
`stopped` flag cleared, and `run_shutdown` leaves it set. -/
theorem C10_stopped_builtin_entries :
    ∀ su sh : List (Int × Nat),
      (∀ x ∈ su, 0 < x.1) → (∀ x ∈ sh, 0 < x.1) →
      (execOrder (addUserCallbacks initStartupRegistry su)).head? = some stoppedClear ∧
      (∀ s, runEffects (execOrder (addUserCallbacks initStartupRegistry su)) s = false) ∧
      (execOrder (addUserCallbacks initShutdownRegistry sh)).head? = some stoppedSet ∧
      (∀ s, runEffects (execOrder (addUserCallbacks initShutdownRegistry sh)) s = true) := by
  intro su sh hsu hsh
  obtain ⟨tail1, he1, ht1⟩ := execOrder_builtin_head stoppedClear su hsu
  obtain ⟨tail2, he2, ht2⟩ := execOrder_builtin_head stoppedSet sh hsh
  refine ⟨by rw [initStartupRegistry, he1]; rfl, ?_, by rw [initShutdownRegistry, he2]; rfl, ?_⟩
  · intro s
    rw [initStartupRegistry, he1]
    have : runEffects (stoppedClear :: tail1) s = runEffects tail1 false := rfl
    rw [this, runEffects_noEffect tail1 ht1]
  · intro s
    rw [initShutdownRegistry, he2]
    have : runEffects (stoppedSet :: tail2) s = runEffects tail2 true := rfl
    rw [this, runEffects_noEffect tail2 ht2]

/-- Witness for C10 with one user startup callback at priority 50 and one
user shutdown callback at priority 50. -/
theorem C10_stopped_builtin_entries_witness :
    (execOrder (addUserCallbacks initStartupRegistry [(50, 1)])).head? = some stoppedClear ∧
    runEffects (execOrder (addUserCallbacks initStartupRegistry [(50, 1)])) true = false ∧
    (execOrder (addUserCallbacks initShutdownRegistry [(50, 2)])).head? = some stoppedSet ∧
    runEffects (execOrder (addUserCallbacks initShutdownRegistry [(50, 2)])) false = true := by
  have h := C10_stopped_builtin_entries [(50, 1)] [(50, 2)] (by decide) (by decide)
  exact ⟨h.1, h.2.1 true, h.2.2.1, h.2.2.2 false⟩

/-! ### `mainloop` (C7)

```
def mainloop():
    _run_startup()
    try:
        while not stopped.is_set():
            try:
                stopped.wait(config['thread_wait_interval'])
            except KeyboardInterrupt:
                break
    finally:
        _run_shutdown()
```

Each iteration of the `while` loop calls `stopped.wait(...)`; the call
either times out with the stop event still unset (the loop keeps going),
returns with the stop event set (the `while` condition then exits the
loop), or is interrupted by `KeyboardInterrupt` (caught, `break`).  The
wait outcomes form the input script; an empty remaining script means the
loop waits forever, so `mainloop` does not return at all (`none`). -/

inductive WaitEvent : Type
  | timeout
  | stopSet
  | interrupt
deriving DecidableEq, Repr

inductive MainAction : Type
  | startupPhase
  | waitCall
  | shutdownPhase
deriving DecidableEq, Repr

/-- How the `while` loop ends. -/
inductive LoopRes : Type
  | exited
  | broke
deriving DecidableEq, Repr

/-- The `while not stopped.is_set()` loop: the wait calls it performs and
how it ends (`none` if the script runs out, i.e. the loop never ends). -/
def waitLoop : List WaitEvent → Option (List MainAction × LoopRes)
  | [] => none
  | .timeout :: es => (waitLoop es).map (fun p => (MainAction.waitCall :: p.1, p.2))
  | .stopSet :: _ => some ([MainAction.waitCall], LoopRes.exited)
  | .interrupt :: _ => some ([MainAction.waitCall], LoopRes.broke)

/-- `mainloop` after a successful `_run_startup`: the `try` body is the
wait loop; `break` makes the `KeyboardInterrupt` case end the loop
normally rather than re-raise, so in both loop outcomes the `finally`
clause runs `_run_shutdown` and the function returns without an
exception.  The result is the trace of phases plus the exception (if any)
seen by the caller. -/
def mainloop (events : List WaitEvent) : Option (List MainAction × Option MainAction) :=
  match waitLoop events with
  | none => none
  | some (acts, LoopRes.exited) =>
      some (MainAction.startupPhase :: acts ++ [MainAction.shutdownPhase], none)
  | some (acts, LoopRes.broke) =>
      some (MainAction.startupPhase :: acts ++ [MainAction.shutdownPhase], none)

/-- C7: whenever `mainloop` returns, its trace starts with the startup
phase and ends with the shutdown phase, and no exception reaches the
caller — including when the wait was ended by an operator interrupt; a
script of `n` timeouts followed by a `KeyboardInterrupt` yields exactly
startup, `n+1` wait calls, shutdown, and the interrupt is not re-raised. -/
theorem C7_mainloop_always_shuts_down :
    (∀ (events : List WaitEvent) (acts : List MainAction) (exc : Option MainAction),
        mainloop events = some (acts, exc) →
        acts.head? = some MainAction.startupPhase ∧
        acts.getLast? = some MainAction.shutdownPhase ∧ exc = none) ∧
    (∀ n : Nat,
        mainloop (List.replicate n WaitEvent.timeout ++ [WaitEvent.interrupt]) =
          some (MainAction.startupPhase ::
            (List.replicate (n + 1) MainAction.waitCall ++ [MainAction.shutdownPhase]),
            none)) := by
  constructor
  · intro events acts exc h
    rw [mainloop] at h
    match hw : waitLoop events with
    | none => rw [hw] at h; cases h
    | some (was, LoopRes.exited) =>
      rw [hw] at h
      obtain ⟨rfl, rfl⟩ : MainAction.startupPhase :: was ++ [MainAction.shutdownPhase] = acts
          ∧ (none : Option MainAction) = exc := by
        have := Option.some.inj h
        exact ⟨congrArg Prod.fst this, congrArg Prod.snd this⟩
      refine ⟨rfl, ?_, rfl⟩
      rw [show MainAction.startupPhase :: was ++ [MainAction.shutdownPhase] =
        (MainAction.startupPhase :: was) ++ [MainAction.shutdownPhase] from rfl]
      exact List.getLast?_concat _
    | some (was, LoopRes.broke) =>
      rw [hw] at h
      obtain ⟨rfl, rfl⟩ : MainAction.startupPhase :: was ++ [MainAction.shutdownPhase] = acts
          ∧ (none : Option MainAction) = exc := by
        have := Option.some.inj h
        exact ⟨congrArg Prod.fst this, congrArg Prod.snd this⟩
      refine ⟨rfl, ?_, rfl⟩
      rw [show MainAction.startupPhase :: was ++ [MainAction.shutdownPhase] =
        (MainAction.startupPhase :: was) ++ [MainAction.shutdownPhase] from rfl]
      exact List.getLast?_concat _
  · intro n
    have hw : ∀ m : Nat, waitLoop (List.replicate m WaitEvent.timeout ++ [WaitEvent.interrupt]) =
        some (List.replicate (m + 1) MainAction.waitCall, LoopRes.broke) := by
      intro m
      induction m with
      | zero => rfl
      | succ k ih =>
        rw [List.replicate_succ, List.cons_append]
        rw [show waitLoop (WaitEvent.timeout ::
              (List.replicate k WaitEvent.timeout ++ [WaitEvent.interrupt])) =
            (waitLoop (List.replicate k WaitEvent.timeout ++ [WaitEvent.interrupt])).map
              (fun p => (MainAction.waitCall :: p.1, p.2)) from rfl, ih]
        rw [show k + 1 + 1 = (k + 1) + 1 from rfl, List.replicate_succ]
        rfl
    rw [mainloop, hw n]
    rfl

/-- Witness for C7: a run interrupted by `KeyboardInterrupt` after one
timeout still ends with the shutdown phase and raises nothing. -/
theorem C7_mainloop_always_shuts_down_witness :
    [MainAction.startupPhase, MainAction.waitCall, MainAction.waitCall,
        MainAction.shutdownPhase].head? = some MainAction.startupPhase ∧
    [MainAction.startupPhase, MainAction.waitCall, MainAction.waitCall,
        MainAction.shutdownPhase].getLast? = some MainAction.shutdownPhase ∧
    (none : Option MainAction) = none :=
  C7_mainloop_always_shuts_down.1 [WaitEvent.timeout, WaitEvent.interrupt]
    [MainAction.startupPhase, MainAction.waitCall, MainAction.waitCall,
      MainAction.shutdownPhase] none rfl

/-! ### The connectivity prober: `_check` in connection_checker.py

`_check(url, **ssl_params)` builds a list of human-readable status lines,
short-circuiting at the first failing stage.  The network's behaviour
(parse result, DNS answer, connect outcome, TLS outcomes) is the
environment the function runs against; each outcome is a success value or
the message of the exception raised. -/

/-- What `urlparse` returns: `parsed.scheme`, `parsed.hostname` and
`parsed.port` (`None` when the URL has no explicit port). -/
structure ParsedUrl where
  scheme : String
  hostname : String
  port : Option Nat
deriving DecidableEq, Repr

/-- The TLS keyword arguments `_check` receives (`ca_certs`, `keyfile`,
`certfile`); `""` models a falsy value (`None` or the empty string). -/
structure SslParams where
  ca_certs : String
  keyfile : String
  certfile : String
deriving DecidableEq, Repr

/-- `any(ssl_params.values())`: true iff some credential field is truthy. -/
def anyTruthy (sp : SslParams) : Bool :=
  !(sp.ca_certs == "") || !(sp.keyfile == "") || !(sp.certfile == "")

/-- Outcomes of the network operations `_check` performs. -/
structure NetEnv where
  parseResult : Except String ParsedUrl
  dnsResult : Except String String
  connectResult : Except String Unit
  sslHandshake : Except String Unit
  sslValidate : Except String Unit

/-- `443 if parsed.scheme in ['https', 'wss'] else 80`. -/
def defaultPort (scheme : String) : Nat :=
  if scheme = "https" ∨ scheme = "wss" then 443 else 80

/-- `parsed.port or (443 if parsed.scheme in ['https', 'wss'] else 80)`:
Python's `or` yields its right operand when `parsed.port` is falsy, which
is the case both for `None` and for the integer `0`. -/
def effectivePort (p : ParsedUrl) : Nat :=
  match p.port with
  | some n => if n = 0 then defaultPort p.scheme else n
  | none => defaultPort p.scheme

/-! The status lines, one definition per `format` template in the source. -/

def checkingLine (url : String) : String := "checking " ++ url

def parseFailLine (e : String) : String := "failed to parse url: " ++ e

def usingLine (host : String) (port : Nat) : String :=
  "using hostname " ++ host ++ " and port " ++ toString port

def dnsFailLine (e : String) : String := "failed to resolve host with DNS: " ++ e

def dnsOkLine (host ip : String) : String :=
  "successfully resolved host " ++ host ++ " to " ++ ip

def connectFailLine (host : String) (port : Nat) (e : String) : String :=
  "failed to establish a socket connection to " ++ host ++ " on port " ++
    toString port ++ ": " ++ e

def connectOkLine (host : String) (port : Nat) : String :=
  "successfully opened socket connection to " ++ host ++ ":" ++ toString port

/-- The `{}`-interpolation of the `ssl_params` dict. -/
def sslParamsRepr (sp : SslParams) : String :=
  "\x7b'ca_certs': '" ++ sp.ca_certs ++ "', 'keyfile': '" ++ sp.keyfile ++
    "', 'certfile': '" ++ sp.certfile ++ "'\x7d"

def sslFailLine (sp : SslParams) (e : String) : String :=
  "failed to complete SSL handshake (" ++ sslParamsRepr sp ++ "): " ++ e

def sslOkLine : String := "succeeded at SSL handshake (without validating server cert)"

def validateFailLine (sp : SslParams) (e : String) : String :=
  "failed to validate server cert (" ++ sslParamsRepr sp ++ "): " ++ e

def allOkLine : String := "everything seems to work"

/-- `_check(url, **ssl_params)` run against environment `env`. -/
def _check (url : String) (env : NetEnv) (sp : SslParams) : List String :=
  let status := [checkingLine url]
  match env.parseResult with
  | .error e => status ++ [parseFailLine e]
  | .ok parsed =>
    let host := parsed.hostname
    let port := effectivePort parsed
    let status := status ++ [usingLine host port]
    match env.dnsResult with
    | .error e => status ++ [dnsFailLine e]
    | .ok ip =>
      let status := status ++ [dnsOkLine host ip]
      match env.connectResult with
      | .error e => status ++ [connectFailLine host port e]
      | .ok _ =>
        let status := status ++ [connectOkLine host port]
        if anyTruthy sp then
          match env.sslHandshake with
          | .error e => status ++ [sslFailLine sp e]
          | .ok _ =>
            let status := status ++ [sslOkLine]
            match env.sslValidate with
            | .error e => status ++ [validateFailLine sp e]
            | .ok _ => status ++ [allOkLine]
        else status ++ [allOkLine]

/-- A status line appended by one of the two TLS stages. -/
def TlsLine (s : String) : Prop :=
  s = sslOkLine ∨ (∃ sp e, s = sslFailLine sp e) ∨ (∃ sp e, s = validateFailLine sp e)

/-! ### Distinguishing status lines by a character position -/

def nthChar (s : String) (n : Nat) : Option Char := s.data[n]?

theorem nthChar_append_lit (a b : String) (n : Nat) (h : n < a.data.length) :
    nthChar (a ++ b) n = nthChar a n := by
  show ((a ++ b).data)[n]? = (a.data)[n]?
  rw [String.data_append, List.getElem?_append, if_pos h]

theorem nthChar_ne {s t : String} {n : Nat} {c d : Char} (hs : nthChar s n = some c)
    (ht : nthChar t n = some d) (hcd : c ≠ d) : s ≠ t := by
  intro h
  rw [h, ht] at hs
  exact hcd (Option.some.inj hs).symm

theorem nthChar_checkingLine (url : String) : nthChar (checkingLine url) 0 = some 'c' := by
  rw [checkingLine, nthChar_append_lit _ _ 0 (by decide)]; decide

theorem nthChar_parseFailLine0 (e : String) : nthChar (parseFailLine e) 0 = some 'f' := by
  rw [parseFailLine, nthChar_append_lit _ _ 0 (by decide)]; decide

theorem nthChar_parseFailLine10 (e : String) : nthChar (parseFailLine e) 10 = some 'p' := by
  rw [parseFailLine, nthChar_append_lit _ _ 10 (by decide)]; decide

theorem nthChar_usingLine (host : String) (port : Nat) :
    nthChar (usingLine host port) 0 = some 'u' := by
  rw [usingLine, String.append_assoc, String.append_assoc,
    nthChar_append_lit _ _ 0 (by decide)]
  decide

theorem nthChar_dnsFailLine0 (e : String) : nthChar (dnsFailLine e) 0 = some 'f' := by
  rw [dnsFailLine, nthChar_append_lit _ _ 0 (by decide)]; decide

theorem nthChar_dnsFailLine10 (e : String) : nthChar (dnsFailLine e) 10 = some 'r' := by
  rw [dnsFailLine, nthChar_append_lit _ _ 10 (by decide)]; decide

theorem nthChar_dnsOkLine0 (host ip : String) : nthChar (dnsOkLine host ip) 0 = some 's' := by
  rw [dnsOkLine, String.append_assoc, String.append_assoc,
    nthChar_append_lit _ _ 0 (by decide)]
  decide

theorem nthChar_dnsOkLine5 (host ip : String) : nthChar (dnsOkLine host ip) 5 = some 's' := by
  rw [dnsOkLine, String.append_assoc, String.append_assoc,
    nthChar_append_lit _ _ 5 (by decide)]
  decide

theorem nthChar_connectFailLine0 (host : String) (port : Nat) (e : String) :
    nthChar (connectFailLine host port e) 0 = some 'f' := by
  rw [connectFailLine, String.append_assoc, String.append_assoc, String.append_assoc,
    String.append_assoc, nthChar_append_lit _ _ 0 (by decide)]
  decide

theorem nthChar_connectFailLine10 (host : String) (port : Nat) (e : String) :
    nthChar (connectFailLine host port e) 10 = some 'e' := by
  rw [connectFailLine, String.append_assoc, String.append_assoc, String.append_assoc,
    String.append_assoc, nthChar_append_lit _ _ 10 (by decide)]
  decide

theorem nthChar_connectOkLine0 (host : String) (port : Nat) :
    nthChar (connectOkLine host port) 0 = some 's' := by
  rw [connectOkLine, String.append_assoc, String.append_assoc,
    nthChar_append_lit _ _ 0 (by decide)]
  decide

theorem nthChar_connectOkLine5 (host : String) (port : Nat) :
    nthChar (connectOkLine host port) 5 = some 's' := by
  rw [connectOkLine, String.append_assoc, String.append_assoc,
    nthChar_append_lit _ _ 5 (by decide)]
  decide

theorem nthChar_allOkLine0 : nthChar allOkLine 0 = some 'e' := by decide

theorem nthChar_sslOkLine0 : nthChar sslOkLine 0 = some 's' := by decide

theorem nthChar_sslOkLine5 : nthChar sslOkLine 5 = some 'e' := by decide

theorem nthChar_sslFailLine0 (sp : SslParams) (e : String) :
    nthChar (sslFailLine sp e) 0 = some 'f' := by
  rw [sslFailLine, String.append_assoc, String.append_assoc,
    nthChar_append_lit _ _ 0 (by decide)]
  decide

theorem nthChar_sslFailLine10 (sp : SslParams) (e : String) :
    nthChar (sslFailLine sp e) 10 = some 'c' := by
  rw [sslFailLine, String.append_assoc, String.append_assoc,
    nthChar_append_lit _ _ 10 (by decide)]
  decide

theorem nthChar_validateFailLine0 (sp : SslParams) (e : String) :
    nthChar (validateFailLine sp e) 0 = some 'f' := by
  rw [validateFailLine, String.append_assoc, String.append_assoc,
    nthChar_append_lit _ _ 0 (by decide)]
  decide

theorem nthChar_validateFailLine10 (sp : SslParams) (e : String) :
    nthChar (validateFailLine sp e) 10 = some 'v' := by
  rw [validateFailLine, String.append_assoc, String.append_assoc,
    nthChar_append_lit _ _ 10 (by decide)]
  decide

/-! ### Lines from non-TLS stages are never TLS-stage lines -/

theorem not_tlsLine_checkingLine (url : String) : ¬ TlsLine (checkingLine url) := by
  rintro (h | ⟨sp, e, h⟩ | ⟨sp, e, h⟩)
  · exact nthChar_ne (nthChar_checkingLine url) nthChar_sslOkLine0 (by decide) h
  · exact nthChar_ne (nthChar_checkingLine url) (nthChar_sslFailLine0 sp e) (by decide) h
  · exact nthChar_ne (nthChar_checkingLine url) (nthChar_validateFailLine0 sp e) (by decide) h

theorem not_tlsLine_parseFailLine (e0 : String) : ¬ TlsLine (parseFailLine e0) := by
  rintro (h | ⟨sp, e, h⟩ | ⟨sp, e, h⟩)
  · exact nthChar_ne (nthChar_parseFailLine0 e0) nthChar_sslOkLine0 (by decide) h
  · exact nthChar_ne (nthChar_parseFailLine10 e0) (nthChar_sslFailLine10 sp e) (by decide) h
  · exact nthChar_ne (nthChar_parseFailLine10 e0) (nthChar_validateFailLine10 sp e) (by decide) h

theorem not_tlsLine_usingLine (host : String) (port : Nat) : ¬ TlsLine (usingLine host port) := by
  rintro (h | ⟨sp, e, h⟩ | ⟨sp, e, h⟩)
  · exact nthChar_ne (nthChar_usingLine host port) nthChar_sslOkLine0 (by decide) h
  · exact nthChar_ne (nthChar_usingLine host port) (nthChar_sslFailLine0 sp e) (by decide) h
  · exact nthChar_ne (nthChar_usingLine host port) (nthChar_validateFailLine0 sp e) (by decide) h

theorem not_tlsLine_dnsFailLine (e0 : String) : ¬ TlsLine (dnsFailLine e0) := by
  rintro (h | ⟨sp, e, h⟩ | ⟨sp, e, h⟩)
  · exact nthChar_ne (nthChar_dnsFailLine0 e0) nthChar_sslOkLine0 (by decide) h
  · exact nthChar_ne (nthChar_dnsFailLine10 e0) (nthChar_sslFailLine10 sp e) (by decide) h
  · exact nthChar_ne (nthChar_dnsFailLine10 e0) (nthChar_validateFailLine10 sp e) (by decide) h

theorem not_tlsLine_dnsOkLine (host ip : String) : ¬ TlsLine (dnsOkLine host ip) := by
  rintro (h | ⟨sp, e, h⟩ | ⟨sp, e, h⟩)
  · exact nthChar_ne (nthChar_dnsOkLine5 host ip) nthChar_sslOkLine5 (by decide) h
  · exact nthChar_ne (nthChar_dnsOkLine0 host ip) (nthChar_sslFailLine0 sp e) (by decide) h
  · exact nthChar_ne (nthChar_dnsOkLine0 host ip) (nthChar_validateFailLine0 sp e) (by decide) h

theorem not_tlsLine_connectFailLine (host : String) (port : Nat) (e0 : String) :
    ¬ TlsLine (connectFailLine host port e0) := by
  rintro (h | ⟨sp, e, h⟩ | ⟨sp, e, h⟩)
  · exact nthChar_ne (nthChar_connectFailLine0 host port e0) nthChar_sslOkLine0 (by decide) h
  · exact nthChar_ne (nthChar_connectFailLine10 host port e0) (nthChar_sslFailLine10 sp e)
      (by decide) h
  · exact nthChar_ne (nthChar_connectFailLine10 host port e0) (nthChar_validateFailLine10 sp e)
      (by decide) h

theorem not_tlsLine_connectOkLine (host : String) (port : Nat) :
    ¬ TlsLine (connectOkLine host port) := by
  rintro (h | ⟨sp, e, h⟩ | ⟨sp, e, h⟩)
  · exact nthChar_ne (nthChar_connectOkLine5 host port) nthChar_sslOkLine5 (by decide) h
  · exact nthChar_ne (nthChar_connectOkLine0 host port) (nthChar_sslFailLine0 sp e) (by decide) h
  · exact nthChar_ne (nthChar_connectOkLine0 host port) (nthChar_validateFailLine0 sp e)
      (by decide) h

theorem not_tlsLine_allOkLine : ¬ TlsLine allOkLine := by
  rintro (h | ⟨sp, e, h⟩ | ⟨sp, e, h⟩)
  · exact nthChar_ne nthChar_allOkLine0 nthChar_sslOkLine0 (by decide) h
  · exact nthChar_ne nthChar_allOkLine0 (nthChar_sslFailLine0 sp e) (by decide) h
  · exact nthChar_ne nthChar_allOkLine0 (nthChar_validateFailLine0 sp e) (by decide) h

/-! ### The claims about the prober -/

/-- C5: when DNS resolution fails, the probe result is exactly the
parse-stage lines followed by the resolution-failure line; the connect,
TLS, and final-success stages contribute nothing. -/
theorem C5_dns_failure_short_circuits :
    ∀ (url : String) (env : NetEnv) (sp : SslParams) (parsed : ParsedUrl) (e : String),
      env.parseResult = .ok parsed → env.dnsResult = .error e →
      _check url env sp =
        [checkingLine url, usingLine parsed.hostname (effectivePort parsed), dnsFailLine e] := by
  intro url env sp parsed e hp hd
  simp [_check, hp, hd]

/-- Witness for C5 at a concrete environment whose DNS resolution fails. -/
theorem C5_dns_failure_short_circuits_witness :
    _check "http://example.com/"
        ⟨.ok ⟨"http", "example.com", none⟩, .error "name or service not known",
          .ok (), .ok (), .ok ()⟩ ⟨"", "", ""⟩ =
      [checkingLine "http://example.com/", usingLine "example.com" 80,
        dnsFailLine "name or service not known"] :=
  C5_dns_failure_short_circuits "http://example.com/"
    ⟨.ok ⟨"http", "example.com", none⟩, .error "name or service not known",
      .ok (), .ok (), .ok ()⟩ ⟨"", "", ""⟩ ⟨"http", "example.com", none⟩
    "name or service not known" rfl rfl

/-- C6: with no truthy TLS credential field the probe result contains no
TLS-stage line, whatever the network does; with a truthy credential field
the TLS handshake stage is attempted as soon as the connect stage
succeeds, contributing its success or failure line. -/
theorem C6_tls_stages_iff_credentials :
    (∀ (url : String) (env : NetEnv) (sp : SslParams), anyTruthy sp = false →
        ∀ line ∈ _check url env sp, ¬ TlsLine line) ∧
    (∀ (url : String) (env : NetEnv) (sp : SslParams) (parsed : ParsedUrl) (ip : String),
        anyTruthy sp = true → env.parseResult = .ok parsed → env.dnsResult = .ok ip →
        env.connectResult = .ok () → env.sslHandshake = .ok () →
        sslOkLine ∈ _check url env sp) ∧
    (∀ (url : String) (env : NetEnv) (sp : SslParams) (parsed : ParsedUrl) (ip e : String),
        anyTruthy sp = true → env.parseResult = .ok parsed → env.dnsResult = .ok ip →
        env.connectResult = .ok () → env.sslHandshake = .error e →
        sslFailLine sp e ∈ _check url env sp) := by
  refine ⟨?_, ?_, ?_⟩
  · intro url env sp hsp line hline
    cases hp : env.parseResult with
    | error e =>
      simp only [_check, hp, List.cons_append, List.nil_append, List.mem_cons,
        List.not_mem_nil, or_false] at hline
      rcases hline with rfl | rfl
      · exact not_tlsLine_checkingLine url
      · exact not_tlsLine_parseFailLine e
    | ok parsed =>
      cases hd : env.dnsResult with
      | error e =>
        simp only [_check, hp, hd, List.cons_append, List.nil_append, List.mem_cons,
          List.not_mem_nil, or_false] at hline
        rcases hline with rfl | rfl | rfl
        · exact not_tlsLine_checkingLine url
        · exact not_tlsLine_usingLine _ _
        · exact not_tlsLine_dnsFailLine e
      | ok ip =>
        cases hc : env.connectResult with
        | error e =>
          simp only [_check, hp, hd, hc, List.cons_append, List.nil_append, List.mem_cons,
            List.not_mem_nil, or_false] at hline
          rcases hline with rfl | rfl | rfl | rfl
          · exact not_tlsLine_checkingLine url
          · exact not_tlsLine_usingLine _ _
          · exact not_tlsLine_dnsOkLine _ _
          · exact not_tlsLine_connectFailLine _ _ e
        | ok u =>
          cases u
          simp only [_check, hp, hd, hc, hsp, Bool.false_eq_true, if_false,
            List.cons_append, List.nil_append, List.mem_cons,
            List.not_mem_nil, or_false] at hline
          rcases hline with rfl | rfl | rfl | rfl | rfl
          · exact not_tlsLine_checkingLine url
          · exact not_tlsLine_usingLine _ _
          · exact not_tlsLine_dnsOkLine _ _
          · exact not_tlsLine_connectOkLine _ _
          · exact not_tlsLine_allOkLine
  · intro url env sp parsed ip hsp hp hd hc hh
    cases hv : env.sslValidate with
    | error e => simp [_check, hp, hd, hc, hh, hv, hsp]
    | ok u => cases u; simp [_check, hp, hd, hc, hh, hv, hsp]
  · intro url env sp parsed ip e hsp hp hd hc hh
    simp [_check, hp, hd, hc, hh, hsp]

/-- Witness for C6: the empty credential bundle yields no TLS line (shown
at the parse-stage line), and a non-empty `ca_certs` with a successful
handshake puts the TLS success line in the result. -/
theorem C6_tls_stages_iff_credentials_witness :
    ¬ TlsLine (checkingLine "http://example.com/") ∧
    sslOkLine ∈ _check "https://example.com/"
      ⟨.ok ⟨"https", "example.com", none⟩, .ok "93.184.216.34", .ok (), .ok (), .ok ()⟩
      ⟨"ca.pem", "", ""⟩ :=
  ⟨C6_tls_stages_iff_credentials.1 "http://example.com/"
      ⟨.ok ⟨"http", "example.com", none⟩, .ok "93.184.216.34", .ok (), .ok (), .ok ()⟩
      ⟨"", "", ""⟩ rfl (checkingLine "http://example.com/") (by simp [_check, anyTruthy]),
    C6_tls_stages_iff_credentials.2.1 "https://example.com/"
      ⟨.ok ⟨"https", "example.com", none⟩, .ok "93.184.216.34", .ok (), .ok (), .ok ()⟩
      ⟨"ca.pem", "", ""⟩ ⟨"https", "example.com", none⟩ "93.184.216.34" rfl rfl rfl rfl rfl⟩

/-- Counterexample to C4 as stated: `http://example.com:0/` is a
well-formed URL with the explicit port 0 (`urlparse` accepts it and
returns `port = 0`), but because Python's `or` treats the integer 0 as
falsy, `_check` connects on the default port 80, not on port 0. -/
theorem C4_counterexample :
    (ParsedUrl.mk "http" "example.com" (some 0)).port = some 0 ∧
    effectivePort (ParsedUrl.mk "http" "example.com" (some 0)) = 80 ∧
    effectivePort (ParsedUrl.mk "http" "example.com" (some 0)) ≠ 0 := by
  refine ⟨rfl, by decide, by decide⟩

/-- C4 amended: for every well-formed URL with an explicit NONZERO port,
the probe uses exactly that port; for `https`/`wss` URLs without an
explicit port the effective port is 443; for every other scheme without an
explicit port it is 80.  (An explicit port 0 falls through to the scheme
default, because `parsed.port or default` treats 0 as falsy.) -/
theorem C4_effective_port :
    (∀ (u : ParsedUrl) (p : Nat), u.port = some p → p ≠ 0 → effectivePort u = p) ∧
    (∀ u : ParsedUrl, u.port = none → (u.scheme = "https" ∨ u.scheme = "wss") →
        effectivePort u = 443) ∧
    (∀ u : ParsedUrl, u.port = none → u.scheme ≠ "https" → u.scheme ≠ "wss" →
        effectivePort u = 80) := by
  refine ⟨?_, ?_, ?_⟩
  · intro u p hp hn
    simp [effectivePort, hp, hn]
  · intro u hp hs
    rcases hs with h | h <;> simp [effectivePort, hp, defaultPort, h]
  · intro u hp h1 h2
    simp [effectivePort, hp, defaultPort, h1, h2]

/-- Witness for the amended C4 at concrete URLs. -/
theorem C4_effective_port_witness :
    effectivePort ⟨"http", "example.com", some 8080⟩ = 8080 ∧
    effectivePort ⟨"wss", "example.com", none⟩ = 443 ∧
    effectivePort ⟨"ws", "example.com", none⟩ = 80 :=
  ⟨C4_effective_port.1 ⟨"http", "example.com", some 8080⟩ 8080 rfl (by decide),
    C4_effective_port.2.1 ⟨"wss", "example.com", none⟩ rfl (Or.inr rfl),
    C4_effective_port.2.2 ⟨"ws", "example.com", none⟩ rfl (by decide) (by decide)⟩

/-! ### The connect stage's timeout (C8) -/

/-- The timeout argument of the TCP connect stage:
`socket.create_connection((host, port))` in `_check` passes none. -/
def createConnectionTimeout : Option Nat := none

/-- The timeout that governs the connect attempt: the explicit argument if
one was passed, otherwise the process-wide `socket.getdefaulttimeout()`
value (`none` means no bound, and it is unset unless something configured
it). -/
def effectiveConnectTimeout (globalDefault : Option Nat) : Option Nat :=
  match createConnectionTimeout with
  | some t => some t
  | none => globalDefault

/-- Counterexample to C8 as stated: the connect stage passes no timeout
argument, so under the default socket configuration (no global default
timeout) the connect attempt has no bound at all. -/
theorem C8_counterexample :
    createConnectionTimeout = none ∧ effectiveConnectTimeout none = none :=
  ⟨rfl, rfl⟩

/-- C8 amended: the probe's TCP connect stage passes no timeout of its
own; the connection attempt is bounded only by the process-wide default
socket timeout (unset, hence unbounded, by default), so an unresponsive
endpoint can block the connect stage indefinitely. -/
theorem C8_connect_timeout_is_global_default :
    ∀ g : Option Nat, effectiveConnectTimeout g = g := by
  intro g
  rfl

end Sideboard
